import Mathlib

/-!
Verification of the `tokenest` token-estimation engine (github.com/EZ-Api/tokenest).

The Go sources are shallowly embedded as follows:
* a Go `string` / `[]byte` is a `List Nat` of byte values (Go strings are byte
  sequences; `string(b)` is the identity on bytes);
* a Go `rune` is a `Nat` (a Unicode code point; decode failures yield `0xFFFD`);
* Go `int` is `Int` (no arithmetic here approaches 2^63, so overflow is ignored);
* Go `float64` is `ℚ` (the engine only multiplies/divides small decimal constants
  and takes `math.Ceil`; all statements proved here are about branch structure and
  exact small-rational arithmetic, not float rounding);
* `for _, r := range s` loops are folds over the decoded rune sequence, and the
  byte-position scan of `estimateWeighted` is a fold over the decoded
  (rune, size) sequence.  Substring segments are re-decoded in Go exactly as
  they are here (Go's decoder consumes exactly the bytes of each reported rune,
  so cutting at reported boundaries re-decodes identically).
-/

namespace Tokenest

/-! ## UTF-8 decoding (Go `unicode/utf8`)

`decodeRune` models `utf8.DecodeRuneInString`: it returns the decoded code
point together with the number of bytes consumed.  An empty input gives
`(RuneError, 0)`; any invalid, overlong, surrogate or truncated encoding gives
`(RuneError, 1)` exactly as in Go. -/

def RuneError : Nat := 0xFFFD

def decodeRune : List Nat → Nat × Nat
  | [] => (RuneError, 0)
  | b0 :: rest =>
    if b0 < 0x80 then (b0, 1)
    else if b0 < 0xC2 || 0xF4 < b0 then (RuneError, 1)
    else
      match rest with
      | [] => (RuneError, 1)
      | b1 :: rest1 =>
        if b0 < 0xE0 then
          if 0x80 ≤ b1 ∧ b1 ≤ 0xBF then ((b0 % 0x20) * 64 + b1 % 0x40, 2)
          else (RuneError, 1)
        else if b0 < 0xF0 then
          if (if b0 = 0xE0 then 0xA0 else 0x80) ≤ b1 ∧ b1 ≤ (if b0 = 0xED then 0x9F else 0xBF) then
            match rest1 with
            | [] => (RuneError, 1)
            | b2 :: _ =>
              if 0x80 ≤ b2 ∧ b2 ≤ 0xBF then
                ((b0 % 0x10) * 4096 + (b1 % 0x40) * 64 + b2 % 0x40, 3)
              else (RuneError, 1)
          else (RuneError, 1)
        else
          if (if b0 = 0xF0 then 0x90 else 0x80) ≤ b1 ∧ b1 ≤ (if b0 = 0xF4 then 0x8F else 0xBF) then
            match rest1 with
            | b2 :: b3 :: _ =>
              if (0x80 ≤ b2 ∧ b2 ≤ 0xBF) ∧ (0x80 ≤ b3 ∧ b3 ≤ 0xBF) then
                ((b0 % 8) * 262144 + (b1 % 0x40) * 4096 + (b2 % 0x40) * 64 + b3 % 0x40, 4)
              else (RuneError, 1)
            | _ => (RuneError, 1)
          else (RuneError, 1)

/-- The full decoded (rune, size) sequence of a byte string.  The fuel argument
is a termination device only: each step consumes at least one byte, so
`s.length` fuel always suffices. -/
def decodeSeqAux : Nat → List Nat → List (Nat × Nat)
  | 0, _ => []
  | _ + 1, [] => []
  | fuel + 1, b :: l =>
    decodeRune (b :: l) :: decodeSeqAux fuel ((b :: l).drop (decodeRune (b :: l)).2)

def decodeSeq (s : List Nat) : List (Nat × Nat) := decodeSeqAux s.length s

/-- The decoded rune sequence of a byte string (Go's `for range` view; equals
`utf8.RuneCountInString` in length). -/
def decodeRunes (s : List Nat) : List Nat := (decodeSeq s).map Prod.fst

/-! ## Code-point classification

Direct translations of the fixed range tables in the source.  `goIsSpace`
models `unicode.IsSpace` (the full Unicode White_Space set); `goIsUpper`
models `unicode.IsUpper` on the ASCII range (it is used only for the ZR
capital-ratio statistic, and no theorem below depends on the exact table). -/

def goIsSpace (r : Nat) : Bool :=
  (0x09 ≤ r ∧ r ≤ 0x0D) ∨ r = 0x20 ∨ r = 0x85 ∨ r = 0xA0 ∨ r = 0x1680 ∨
    (0x2000 ≤ r ∧ r ≤ 0x200A) ∨ r = 0x2028 ∨ r = 0x2029 ∨ r = 0x202F ∨
    r = 0x205F ∨ r = 0x3000

def goIsUpper (r : Nat) : Bool := 65 ≤ r ∧ r ≤ 90

def isCJKRune (r : Nat) : Bool :=
  (0x4E00 ≤ r ∧ r ≤ 0x9FFF) ∨ (0x3400 ≤ r ∧ r ≤ 0x4DBF) ∨
    (0x3000 ≤ r ∧ r ≤ 0x303F) ∨ (0xFF00 ≤ r ∧ r ≤ 0xFFEF) ∨
    (0x30A0 ≤ r ∧ r ≤ 0x30FF) ∨ (0x2E80 ≤ r ∧ r ≤ 0x2EFF) ∨
    (0x31C0 ≤ r ∧ r ≤ 0x31EF) ∨ (0x3200 ≤ r ∧ r ≤ 0x32FF) ∨
    (0x3300 ≤ r ∧ r ≤ 0x33FF) ∨ (0xAC00 ≤ r ∧ r ≤ 0xD7AF) ∨
    (0x1100 ≤ r ∧ r ≤ 0x11FF) ∨ (0x3130 ≤ r ∧ r ≤ 0x318F) ∨
    (0xA960 ≤ r ∧ r ≤ 0xA97F) ∨ (0xD7B0 ≤ r ∧ r ≤ 0xD7FF)

/-- Fixed ASCII punctuation set of the Weighted segmenter
(`. , ! ? ; ( ) \x7b \x7d [ ] < > : / \ | @ # $ % ^ & * + = backtick ~ _ - " '`). -/
def isPunctuation (r : Nat) : Bool :=
  r = 46 ∨ r = 44 ∨ r = 33 ∨ r = 63 ∨ r = 59 ∨ r = 40 ∨ r = 41 ∨ r = 123 ∨
    r = 125 ∨ r = 91 ∨ r = 93 ∨ r = 60 ∨ r = 62 ∨ r = 58 ∨ r = 47 ∨ r = 92 ∨
    r = 124 ∨ r = 64 ∨ r = 35 ∨ r = 36 ∨ r = 37 ∨ r = 94 ∨ r = 38 ∨ r = 42 ∨
    r = 43 ∨ r = 61 ∨ r = 96 ∨ r = 126 ∨ r = 95 ∨ r = 45 ∨ r = 34 ∨ r = 39

/-- The tokenX punctuation set: `isPunctuation` minus `"` (34) and `'` (39). -/
def isTokenXPunct (r : Nat) : Bool :=
  r = 46 ∨ r = 44 ∨ r = 33 ∨ r = 63 ∨ r = 59 ∨ r = 40 ∨ r = 41 ∨ r = 123 ∨
    r = 125 ∨ r = 91 ∨ r = 93 ∨ r = 60 ∨ r = 62 ∨ r = 58 ∨ r = 47 ∨ r = 92 ∨
    r = 124 ∨ r = 64 ∨ r = 35 ∨ r = 36 ∨ r = 37 ∨ r = 94 ∨ r = 38 ∨ r = 42 ∨
    r = 43 ∨ r = 61 ∨ r = 96 ∨ r = 126 ∨ r = 95 ∨ r = 45

def isAtSign (r : Nat) : Bool := r = 64

/-- URL delimiter set `: / . ? & = # %`. -/
def isURLDelim (r : Nat) : Bool :=
  r = 58 ∨ r = 47 ∨ r = 46 ∨ r = 63 ∨ r = 38 ∨ r = 61 ∨ r = 35 ∨ r = 37

/-- Math symbol set `+ - * / = ^ < >`. -/
def isMathSymbol (r : Nat) : Bool :=
  r = 43 ∨ r = 45 ∨ r = 42 ∨ r = 47 ∨ r = 61 ∨ r = 94 ∨ r = 60 ∨ r = 62

def isEmoji (r : Nat) : Bool :=
  (0x1F300 ≤ r ∧ r ≤ 0x1F5FF) ∨ (0x1F600 ≤ r ∧ r ≤ 0x1F64F) ∨
    (0x1F680 ≤ r ∧ r ≤ 0x1F6FF) ∨ (0x1F700 ≤ r ∧ r ≤ 0x1F77F) ∨
    (0x1F900 ≤ r ∧ r ≤ 0x1F9FF) ∨ (0x1FA00 ≤ r ∧ r ≤ 0x1FAFF) ∨
    (0x2600 ≤ r ∧ r ≤ 0x26FF) ∨ (0x2700 ≤ r ∧ r ≤ 0x27BF)

def isLatinAlphaNum (r : Nat) : Bool :=
  (97 ≤ r ∧ r ≤ 122) ∨ (65 ≤ r ∧ r ≤ 90) ∨ (48 ≤ r ∧ r ≤ 57) ∨
    (0xC0 ≤ r ∧ r ≤ 0xFF)

def isHexRune (r : Nat) : Bool :=
  (48 ≤ r ∧ r ≤ 57) ∨ (97 ≤ r ∧ r ≤ 102) ∨ (65 ≤ r ∧ r ≤ 70)

def isDigitRune (r : Nat) : Bool := 48 ≤ r ∧ r ≤ 57

def isSepRune (r : Nat) : Bool := r = 46 ∨ r = 44

/-! ## Segment-level predicates (`tokenx_helpers.go`), on decoded rune lists -/

/-- Loop of `isNumericSegment`: `hasDigit`/`prevSeparator` state machine. -/
def isNumericLoop : List Nat → Bool → Bool → Bool
  | [], hasDigit, prevSeparator => hasDigit && !prevSeparator
  | r :: rs, hasDigit, prevSeparator =>
    if isDigitRune r then isNumericLoop rs true false
    else if isSepRune r then
      if prevSeparator then false else isNumericLoop rs hasDigit true
    else false

/-- `isNumericSegment` from `tokenx_helpers.go`, over the decoded runes of the
segment (the Go loop is `for _, r := range segment`). -/
def isNumericSegment (rs : List Nat) : Bool := isNumericLoop rs false false

def isAlphanumericSegment (rs : List Nat) : Bool := rs.all isLatinAlphaNum

/-- `isCJKSegment`: non-empty and every rune CJK. -/
def isCJKSegment (rs : List Nat) : Bool := !rs.isEmpty && rs.all isCJKRune

def isTokenXWhitespace (rs : List Nat) : Bool := rs.all goIsSpace && !rs.isEmpty

def containsTokenXPunct (rs : List Nat) : Bool := rs.any isTokenXPunct

/-! ## Language-specific chars-per-token lookup (`defaultLanguageConfigs`) -/

def defaultCharsPerToken : ℚ := 6

def germanRunes : List Nat := [0xE4, 0xF6, 0xFC, 0xDF, 0x1E9E]

def frenchSpanishRunes : List Nat :=
  [0xE9, 0xE8, 0xEA, 0xEB, 0xE0, 0xE2, 0xEE, 0xEF, 0xF4, 0xFB, 0xF9, 0xFC,
   0xFF, 0xE7, 0x153, 0xE6, 0xE1, 0xED, 0xF3, 0xFA, 0xF1]

def slavicRunes : List Nat :=
  [0x105, 0x107, 0x119, 0x142, 0x144, 0xF3, 0x15B, 0x17A, 0x17C, 0x11B,
   0x161, 0x10D, 0x159, 0x17E, 0xFD, 0x16F, 0xFA, 0x10F, 0x165, 0x148]

/-- `languageConfig.matches`: the segment contains some rune of the set. -/
def langMatches (set : List Nat) (rs : List Nat) : Bool := rs.any (fun r => set.contains r)

/-- `getLanguageSpecificCharsPerToken`: first matching config wins, in the
fixed order German (3), French/Spanish (3), Slavic (3.5); no match gives 0. -/
def getLanguageSpecificCharsPerToken (rs : List Nat) : ℚ :=
  if langMatches germanRunes rs then 3
  else if langMatches frenchSpanishRunes rs then 3
  else if langMatches slavicRunes rs then 7/2
  else 0

/-! ## Profiles and weights (`profiles.go`)

Go's `Strategy` and `Profile` are `int`; they are embedded as `Int` with the
same constant values.  The category string constants are embedded as an
inductive type (`categoryWord = "word"`, ..., `categorySpace = "space"`). -/

def StrategyAuto : Int := 0
def StrategyUltraFast : Int := 1
def StrategyFast : Int := 2
def StrategyWeighted : Int := 3
def StrategyZR : Int := 4

def ProfileAuto : Int := 0
def ProfileOpenAI : Int := 1
def ProfileClaude : Int := 2
def ProfileGemini : Int := 3

/-- `Options` from the public API.  `Model` and `ProviderType` are rune lists
(they are only ever inspected rune-wise); `GlobalMultiplier` models the Go
`float64` field as an exact rational. -/
structure Options where
  Strategy : Int := 0
  Profile : Int := 0
  Model : List Nat := []
  ProviderType : List Nat := []
  GlobalMultiplier : ℚ := 0
  Explain : Bool := false
  deriving DecidableEq

inductive Category where
  | word
  | number
  | cjk
  | symbol
  | mathSymbol
  | urlDelim
  | atSign
  | emoji
  | newline
  | space
  deriving DecidableEq

def breakdownOrder : List Category :=
  [.word, .number, .cjk, .symbol, .mathSymbol, .urlDelim, .atSign, .emoji,
   .newline, .space]

structure Weights where
  word : ℚ
  number : ℚ
  cjk : ℚ
  symbol : ℚ
  mathSymbol : ℚ
  urlDelim : ℚ
  atSign : ℚ
  emoji : ℚ
  newline : ℚ
  space : ℚ
  deriving DecidableEq

/-- `weightsForProfile`: Gemini and Claude have dedicated tables; every other
profile value (including OpenAI and invalid ones) gets the default table. -/
def weightsForProfile (profile : Int) : Weights :=
  if profile = ProfileGemini then
    { word := 1.15, number := 2.8, cjk := 0.68, symbol := 0.38,
      mathSymbol := 1.05, urlDelim := 1.2, atSign := 2.5, emoji := 1.08,
      newline := 1.15, space := 0.2 }
  else if profile = ProfileClaude then
    { word := 1.13, number := 1.63, cjk := 1.21, symbol := 0.4,
      mathSymbol := 4.52, urlDelim := 1.26, atSign := 2.82, emoji := 2.6,
      newline := 0.89, space := 0.39 }
  else
    { word := 1.02, number := 1.55, cjk := 0.85, symbol := 0.4,
      mathSymbol := 2.68, urlDelim := 1.0, atSign := 2.0, emoji := 2.12,
      newline := 0.5, space := 0.42 }

/-- `weightForCategory`: the `symbol` weight is also the default fallback. -/
def weightForCategory (w : Weights) : Category → ℚ
  | .word => w.word
  | .number => w.number
  | .cjk => w.cjk
  | .mathSymbol => w.mathSymbol
  | .urlDelim => w.urlDelim
  | .atSign => w.atSign
  | .emoji => w.emoji
  | .newline => w.newline
  | .space => w.space
  | .symbol => w.symbol

/-! ## String helpers for profile resolution (`strings` package)

`Model`/`ProviderType` hints are embedded as rune lists.  `goToLower` models
`strings.ToLower` on the ASCII range (the keyword comparisons below only
involve ASCII keywords). -/

def goToLower (r : Nat) : Nat := if 65 ≤ r ∧ r ≤ 90 then r + 32 else r

/-- `strings.TrimSpace`: drop leading and trailing White_Space runes. -/
def trimSpace (rs : List Nat) : List Nat :=
  ((rs.dropWhile goIsSpace).reverse.dropWhile goIsSpace).reverse

/-- `strings.Contains sub s`: `sub` occurs as a contiguous substring of `s`. -/
def strContains : List Nat → List Nat → Bool
  | s, sub =>
    if sub.isPrefixOf s then true
    else
      match s with
      | [] => false
      | _ :: t => strContains t sub

/- ASCII rune lists for the keywords compared against in `resolveProfile`. -/

def kwAnthropic : List Nat := [97, 110, 116, 104, 114, 111, 112, 105, 99]
def kwClaude : List Nat := [99, 108, 97, 117, 100, 101]
def kwGemini : List Nat := [103, 101, 109, 105, 110, 105]
def kwGoogle : List Nat := [103, 111, 111, 103, 108, 101]
def kwOpenAI : List Nat := [111, 112, 101, 110, 97, 105]

/-- `resolveProfile` from `profiles.go`: explicit profile wins, then provider
hints, then model hints, with OpenAI as the final fallback. -/
def resolveProfile (opts : Options) : Int :=
  if opts.Profile ≠ ProfileAuto then opts.Profile
  else
    let providerType := ((trimSpace opts.ProviderType).map goToLower)
    if providerType = kwAnthropic || strContains providerType kwClaude then ProfileClaude
    else if providerType = kwGemini || providerType = kwGoogle ||
        strContains providerType kwGemini then ProfileGemini
    else if providerType = kwOpenAI || strContains providerType kwOpenAI then ProfileOpenAI
    else
      let model := ((trimSpace opts.Model).map goToLower)
      if strContains model kwClaude then ProfileClaude
      else if strContains model kwGemini then ProfileGemini
      else ProfileOpenAI

/-! ## The Weighted estimator (`estimateWeighted` and its segment helpers)

The Go function scans byte positions with `utf8.DecodeRuneInString`.  A
decode failure (RuneError with size 1) at a scan position adds one `symbol`
unit and advances one byte; otherwise a maximal run of whitespace / emoji /
punctuation / word runes is consumed and handed to the matching segment
helper.  Here the scan is a left fold over `decodeSeq`; run boundaries and
the per-segment rune sequences agree with Go because the decoder consumes
exactly the bytes of each reported rune. -/

structure CategoryBreakdown where
  Category : Category
  BaseUnits : ℚ
  Weight : ℚ
  Tokens : ℚ
  deriving DecidableEq

/-- Kinds of maximal runs in the Weighted scan.  `err` is a single-byte decode
failure at a scan position (handled before the category dispatch in Go). -/
inductive WKind where
  | err
  | space
  | emoji
  | punct
  | word
  deriving DecidableEq

/-- The run kind started by a decoded (rune, size) pair, mirroring the order
of the checks in the Go scan loop. -/
def wkindOf (r size : Nat) : WKind :=
  if r = RuneError ∧ size = 1 then .err
  else if goIsSpace r then .space
  else if isEmoji r then .emoji
  else if isPunctuation r then .punct
  else .word

/-- Whether a decoded rune extends a run of the given kind (the conditions of
the inner `for` loops; an `err` pseudo-run is never extended). -/
def wContinues : WKind → Nat → Bool
  | .err, _ => false
  | .space, r => goIsSpace r
  | .emoji, r => isEmoji r
  | .punct, r => isPunctuation r
  | .word, r => !(goIsSpace r || isPunctuation r || isEmoji r)

structure WState where
  done : List (WKind × List Nat)
  cur : Option (WKind × List Nat)

def wStep (st : WState) (p : Nat × Nat) : WState :=
  match st.cur with
  | none => ⟨st.done, some (wkindOf p.1 p.2, [p.1])⟩
  | some (k, rs) =>
    if wContinues k p.1 then ⟨st.done, some (k, rs ++ [p.1])⟩
    else ⟨st.done ++ [(k, rs)], some (wkindOf p.1 p.2, [p.1])⟩

def wFlush (st : WState) : List (WKind × List Nat) :=
  match st.cur with
  | none => st.done
  | some g => st.done ++ [g]

/-- The maximal runs of the Weighted scan, as (kind, decoded runes) pairs. -/
def weightedSegments (text : List Nat) : List (WKind × List Nat) :=
  wFlush ((decodeSeq text).foldl wStep ⟨[], none⟩)

/-- `addWhitespaceSegment`: one `newline` unit per `\n`, one `space` unit per
other space rune (zero-unit additions are dropped by `addCategory`'s guard,
applied when the events are consumed). -/
def addWhitespaceSegment (rs : List Nat) : List (Category × ℚ) :=
  [(.newline, ((rs.filter (fun r => r = 10)).length : ℚ)),
   (.space, ((rs.filter (fun r => decide (r ≠ 10) && goIsSpace r)).length : ℚ))]

/-- Loop of `addPunctuationSegment`: at-sign / URL-delimiter / math-symbol
runes interrupt and flush the pending generic symbol run as `ceil(k/2)`. -/
def punctLoop : List Nat → Nat → List (Category × ℚ)
  | [], run => if run = 0 then [] else [(.symbol, (Int.ceil ((run : ℚ) / 2) : ℚ))]
  | r :: rs, run =>
    if isAtSign r then
      (if run = 0 then [] else [(.symbol, (Int.ceil ((run : ℚ) / 2) : ℚ))]) ++
        (.atSign, (1 : ℚ)) :: punctLoop rs 0
    else if isURLDelim r then
      (if run = 0 then [] else [(.symbol, (Int.ceil ((run : ℚ) / 2) : ℚ))]) ++
        (.urlDelim, (1 : ℚ)) :: punctLoop rs 0
    else if isMathSymbol r then
      (if run = 0 then [] else [(.symbol, (Int.ceil ((run : ℚ) / 2) : ℚ))]) ++
        (.mathSymbol, (1 : ℚ)) :: punctLoop rs 0
    else punctLoop rs (run + 1)

def addPunctuationSegment (rs : List Nat) : List (Category × ℚ) := punctLoop rs 0

/-- `addWordSegment`: CJK, numeric, short-word, Latin-alphanumeric and
mixed-script cases, in the order of the Go source. -/
def addWordSegment (rs : List Nat) : List (Category × ℚ) :=
  if rs = [] then []
  else if isCJKSegment rs then [(.cjk, (rs.length : ℚ))]
  else if isNumericSegment rs then [(.number, 1)]
  else if rs.length ≤ 3 then [(.word, 1)]
  else if isAlphanumericSegment rs then
    let avg0 := getLanguageSpecificCharsPerToken rs
    let avg := if avg0 ≤ 0 then defaultCharsPerToken else avg0
    [(.word, (Int.ceil ((rs.length : ℚ) / avg) : ℚ))]
  else [(.word, (rs.length : ℚ))]

def segmentEvents : WKind × List Nat → List (Category × ℚ)
  | (.err, _) => [(.symbol, 1)]
  | (.space, rs) => addWhitespaceSegment rs
  | (.emoji, rs) => [(.emoji, (rs.length : ℚ))]
  | (.punct, rs) => addPunctuationSegment rs
  | (.word, rs) => addWordSegment rs

/-- All `addCategory` calls of the Weighted scan, in call order. -/
def weightedEvents (text : List Nat) : List (Category × ℚ) :=
  ((weightedSegments text).map segmentEvents).flatten

/-- The per-category breakdown: categories in canonical `breakdownOrder`,
restricted to those that received at least one positive-unit addition. -/
def mkBreakdown (w : Weights) (evs : List (Category × ℚ)) : List CategoryBreakdown :=
  breakdownOrder.filterMap (fun c =>
    let us := (evs.filter (fun e => decide (e.1 = c))).map Prod.snd
    if us.isEmpty then none
    else some { Category := c, BaseUnits := us.sum,
                Weight := weightForCategory w c,
                Tokens := (us.map (fun u => u * weightForCategory w c)).sum })

/-- `estimateWeighted` (the live variant with per-category profile weights):
returns the token count and, when `explain` is set, the breakdown. -/
def estimateWeighted (text : List Nat) (profile : Int) (explain : Bool) :
    Int × List CategoryBreakdown :=
  if text = [] then (0, [])
  else
    let w := weightsForProfile profile
    let evs := (weightedEvents text).filter (fun e => decide (0 < e.2))
    let total := (evs.map (fun e => e.2 * weightForCategory w e.1)).sum
    (Int.ceil total, if explain then mkBreakdown w evs else [])

/-! ## The UltraFast and Fast estimators -/

def fastSampleTotal : Nat := 1000
def fastHeadSize : Nat := 256
def fastMidSize : Nat := 256
def fastTailSize : Nat := 256

/-- `estimateUltraFast`: `ceil(len/4)` on the raw bytes, `(len+3)/4` in the
source. -/
def estimateUltraFast (data : List Nat) : Int :=
  if data = [] then 0 else (((data.length + 3) / 4 : Nat) : Int)

def isContinuationByte (b : Nat) : Bool := b &&& 0xC0 = 0x80

/-- `adjustLeftToRuneBoundary`: advance past continuation bytes. -/
def adjustLeftToRuneBoundary (text : List Nat) (idx : Nat) : Nat :=
  idx + ((text.drop idx).takeWhile isContinuationByte).length

/-- `adjustRightToRuneBoundary`: back up past continuation bytes (a no-op
when `idx` exceeds the length, as in the Go loop guard). -/
def adjustRightToRuneBoundary (text : List Nat) (idx : Nat) : Nat :=
  if text.length < idx then idx
  else idx - ((text.take idx).reverse.takeWhile isContinuationByte).length

/-- `safeSlice text start end`: clamp, snap both ends to rune boundaries,
and slice.  Out-of-range arguments are clamped exactly as in Go (the
negative-argument clamps are vacuous here since indices are `Nat`). -/
def safeSlice (text : List Nat) (start stop : Nat) : List Nat :=
  let e := if text.length < stop then text.length else stop
  let s := if e < start then e else start
  let s' := adjustLeftToRuneBoundary text s
  let e' := adjustRightToRuneBoundary text e
  let e'' := if e' < s' then s' else e'
  (text.take e'').drop s'

/-- `sampleFastText`: whole text up to 1000 bytes, else head/mid/tail
256-byte windows snapped to rune boundaries. -/
def sampleFastText (text : List Nat) : List Nat :=
  if text.length ≤ fastSampleTotal then text
  else
    let head := safeSlice text 0 fastHeadSize
    let midStart := text.length / 2 - fastMidSize / 2
    let mid := safeSlice text midStart (midStart + fastMidSize)
    let tail := safeSlice text (text.length - fastTailSize) text.length
    head ++ mid ++ tail

def isCJKFast (r : Nat) : Bool := 0x4E00 ≤ r ∧ r ≤ 0x9FFF

def isFastPunct (r : Nat) : Bool :=
  r = 123 ∨ r = 125 ∨ r = 91 ∨ r = 93 ∨ r = 40 ∨ r = 41 ∨ r = 60 ∨ r = 62 ∨
    r = 59 ∨ r = 58 ∨ r = 44 ∨ r = 46 ∨ r = 33 ∨ r = 63 ∨ r = 64 ∨ r = 35 ∨
    r = 36 ∨ r = 37 ∨ r = 94 ∨ r = 38 ∨ r = 42 ∨ r = 61 ∨ r = 43 ∨ r = 45 ∨
    r = 47 ∨ r = 92 ∨ r = 124 ∨ r = 126 ∨ r = 96 ∨ r = 34 ∨ r = 39 ∨ r = 95

/-- `estimateFast`: sampled CJK/punctuation density picks a divisor in
`[2, 4]`, applied to the full byte length. -/
def estimateFast (text : List Nat) : Int :=
  if text = [] then 0
  else
    let sample := sampleFastText text
    if sample = [] then 0
    else
      let rs := decodeRunes sample
      if rs.length = 0 then 0
      else
        let cjkR : ℚ := ((rs.filter isCJKFast).length : ℚ) / (rs.length : ℚ)
        let punctR : ℚ := ((rs.filter isFastPunct).length : ℚ) / (rs.length : ℚ)
        let d0 : ℚ := 4 - cjkR * (3/2) - punctR * 1
        let d1 := if d0 < 2 then 2 else d0
        let divisor := if 4 < d1 then 4 else d1
        Int.ceil ((text.length : ℚ) / divisor)

/-! ## The ZR estimator (`strategyTest1.go`, parameters from
`strategy/strategyTest1_params.go`) -/

structure zrStats where
  TotalRunes : Nat := 0
  CJKRunes : Nat := 0
  PunctRunes : Nat := 0
  DigitRunes : Nat := 0
  SpaceRunes : Nat := 0
  UpperRunes : Nat := 0
  HexRunes : Nat := 0
  deriving DecidableEq

structure zrConfig where
  charsPerToken : ℚ
  shortThreshold : Nat
  capitalThreshold : ℚ
  denseThreshold : ℚ
  hexThreshold : ℚ
  alnumPunctThreshold : ℚ

def zrConfigDefault : zrConfig :=
  { charsPerToken := 3, shortThreshold := 6, capitalThreshold := 0.30,
    denseThreshold := 0.01, hexThreshold := 0.90, alnumPunctThreshold := 0.03 }

inductive zrCategory where
  | general
  | capital
  | dense
  | hex
  | alnum
  deriving DecidableEq

/-- The fitted coefficient table (`zrCoefficientsByCategory`); every category
is present, with 8 coefficients each. -/
def zrCoefficientsByCategory : zrCategory → List ℚ
  | .general => [0.9315, 0.6002, -1.1969, -0.6224, -0.4560, 1.7567, 3.1898, -4.6306]
  | .capital => [2.0163, 0, 0, 0, 0, 0, 0, 0]
  | .dense => [0.9315, 0.6002, -1.1969, -0.6224, -0.4560, 1.7567, 3.1898, -4.6306]
  | .hex => [0.9315, 0.6002, -1.1969, -0.6224, -0.4560, 1.7567, 3.1898, -4.6306]
  | .alnum => [2.0163, 0, 0, 0, 0, 0, 0, 0]

inductive tokenXSegmentType where
  | whitespace
  | punctuation
  | other
  deriving DecidableEq

def tokenXSegmentTypeForRune (r : Nat) : tokenXSegmentType :=
  if goIsSpace r then .whitespace
  else if isTokenXPunct r then .punctuation
  else .other

/-- Left-fold state splitting the rune stream into maximal runs of one
tokenX segment type (boundary exactly at a type change, as in the Go scan). -/
structure ZState where
  done : List (List Nat)
  cur : Option (tokenXSegmentType × List Nat)

def zStep (st : ZState) (r : Nat) : ZState :=
  match st.cur with
  | none => ⟨st.done, some (tokenXSegmentTypeForRune r, [r])⟩
  | some (ty, rs) =>
    if tokenXSegmentTypeForRune r = ty then ⟨st.done, some (ty, rs ++ [r])⟩
    else ⟨st.done ++ [rs], some (tokenXSegmentTypeForRune r, [r])⟩

def zFlush (st : ZState) : List (List Nat) :=
  match st.cur with
  | none => st.done
  | some g => st.done ++ [g.2]

def tokenXRuns (rs : List Nat) : List (List Nat) := zFlush (rs.foldl zStep ⟨[], none⟩)

/-- The per-rune statistics a non-whitespace segment adds in
`estimateZRTokenXSegment`. -/
def zrSegmentStats (rs : List Nat) : zrStats :=
  { TotalRunes := rs.length,
    CJKRunes := (rs.filter isCJKRune).length,
    PunctRunes := (rs.filter isTokenXPunct).length,
    DigitRunes := (rs.filter isDigitRune).length,
    SpaceRunes := 0,
    UpperRunes := (rs.filter goIsUpper).length,
    HexRunes := (rs.filter isHexRune).length }

def addZrStats (a b : zrStats) : zrStats :=
  { TotalRunes := a.TotalRunes + b.TotalRunes,
    CJKRunes := a.CJKRunes + b.CJKRunes,
    PunctRunes := a.PunctRunes + b.PunctRunes,
    DigitRunes := a.DigitRunes + b.DigitRunes,
    SpaceRunes := a.SpaceRunes + b.SpaceRunes,
    UpperRunes := a.UpperRunes + b.UpperRunes,
    HexRunes := a.HexRunes + b.HexRunes }

/-- `estimateZRTokenXSegment`: base units of one segment, plus the statistics
it contributes. -/
def estimateZRTokenXSegment (rs : List Nat) (cfg : zrConfig) : Int × zrStats :=
  if rs = [] then (0, {})
  else if isTokenXWhitespace rs then (0, {})
  else
    let tok : Int :=
      if isCJKSegment rs then (rs.length : Int)
      else if isNumericSegment rs then 1
      else if rs.length ≤ cfg.shortThreshold then 1
      else if containsTokenXPunct rs then
        (if 1 < rs.length then Int.ceil ((rs.length : ℚ) / 2) else 1)
      else if isAlphanumericSegment rs then
        let avg0 := getLanguageSpecificCharsPerToken rs
        let avg := if avg0 ≤ 0 then cfg.charsPerToken else avg0
        Int.ceil ((rs.length : ℚ) / avg)
      else (rs.length : Int)
    (tok, zrSegmentStats rs)

/-- `estimateZRTokenXWithStats`: sum the per-segment base units and
statistics; space runes are tallied over the whole text in the main loop. -/
def estimateZRTokenXWithStats (text : List Nat) (cfg : zrConfig) : Int × zrStats :=
  let rs := decodeRunes text
  let per := (tokenXRuns rs).map (fun seg => estimateZRTokenXSegment seg cfg)
  ((per.map Prod.fst).sum,
   (per.map Prod.snd).foldl addZrStats { SpaceRunes := (rs.filter goIsSpace).length })

/-- `buildZRFeatures`: the 8-dimensional feature vector. -/
def buildZRFeatures (baseTokens : Int) (stats : zrStats) : List ℚ :=
  if baseTokens ≤ 0 then [0, 0, 0, 0, 0, 0, 0, 0]
  else
    let total : Nat := if stats.TotalRunes = 0 then 1 else stats.TotalRunes
    let base : ℚ := (baseTokens : ℚ)
    let cjkR : ℚ := (stats.CJKRunes : ℚ) / (total : ℚ)
    let punctR : ℚ := (stats.PunctRunes : ℚ) / (total : ℚ)
    let digitR : ℚ := (stats.DigitRunes : ℚ) / (total : ℚ)
    [base, base * cjkR, base * punctR, base * digitR,
     base * cjkR * cjkR, base * punctR * punctR, base * digitR * digitR,
     base * cjkR * punctR]

/-- `zrPredict`: dot product over the common prefix of coefficients and
features. -/
def zrPredict (coeffs features : List ℚ) : ℚ := (List.zipWith (· * ·) coeffs features).sum

/-- `classifyZR`: ordered thresholds selecting exactly one category. -/
def classifyZR (stats : zrStats) (cfg : zrConfig) : zrCategory :=
  if stats.TotalRunes = 0 then .general
  else if (stats.TotalRunes : ℚ) < 50 then .general
  else if cfg.capitalThreshold < (stats.UpperRunes : ℚ) / (stats.TotalRunes : ℚ) then .capital
  else if (stats.SpaceRunes : ℚ) / (stats.TotalRunes : ℚ) < cfg.denseThreshold then
    if cfg.hexThreshold < (stats.HexRunes : ℚ) / (stats.TotalRunes : ℚ) then .hex
    else if (stats.PunctRunes : ℚ) / (stats.TotalRunes : ℚ) < cfg.alnumPunctThreshold then .alnum
    else .dense
  else .general

/-- `estimateZR`: base scan, category classification, dot product, clamp at
zero, ceiling. -/
def estimateZR (text : List Nat) : Int :=
  if text = [] then 0
  else
    let bs := estimateZRTokenXWithStats text zrConfigDefault
    if bs.1 = 0 then 0
    else
      let features := buildZRFeatures bs.1 bs.2
      let coeffs0 := zrCoefficientsByCategory (classifyZR bs.2 zrConfigDefault)
      let coeffs := if coeffs0 = [] then zrCoefficientsByCategory .general else coeffs0
      let pred := zrPredict coeffs features
      if pred < 0 then 0 else Int.ceil pred

/-! ## Public API (`EstimateBytes` / `EstimateText` / `EstimateInput` /
`EstimateOutput`, overhead constants, `applyMultiplier`) -/

def BaseOverhead : Int := 50
def PerMessageOverhead : Int := 4
def ImageTokensLow : Int := 85
def ImageTokensHigh : Int := 765
def ImageTokensDefault : Int := 500

structure ImageCounts where
  LowDetail : Int := 0
  HighDetail : Int := 0
  Unknown : Int := 0
  deriving DecidableEq

structure Result where
  Tokens : Int
  Strategy : Int
  Profile : Int
  Breakdown : List CategoryBreakdown
  deriving DecidableEq

/-- `applyMultiplier`: a multiplier that is non-positive or exactly 1 leaves
the token count unchanged; otherwise the scaled count is rounded up. -/
def applyMultiplier (tokens : Int) (multiplier : ℚ) : Int :=
  if multiplier ≤ 0 ∨ multiplier = 1 then tokens
  else Int.ceil ((tokens : ℚ) * multiplier)

/-- `EstimateBytes`: Auto resolves to UltraFast; unknown strategies also fall
back to UltraFast for the count but are echoed in `Result.Strategy`. -/
def EstimateBytes (data : List Nat) (opts : Options) : Result :=
  let strategy := if opts.Strategy = StrategyAuto then StrategyUltraFast else opts.Strategy
  let tb : Int × List CategoryBreakdown :=
    if strategy = StrategyUltraFast then (estimateUltraFast data, [])
    else if strategy = StrategyFast then (estimateFast data, [])
    else if strategy = StrategyWeighted then
      estimateWeighted data (resolveProfile opts) opts.Explain
    else if strategy = StrategyZR then (estimateZR data, [])
    else (estimateUltraFast data, [])
  { Tokens := applyMultiplier tb.1 opts.GlobalMultiplier,
    Strategy := strategy,
    Profile := resolveProfile opts,
    Breakdown := tb.2 }

/-- `EstimateText`: Auto resolves to Fast; unknown strategies also fall back
to Fast for the count but are echoed in `Result.Strategy`.  Go's
`string(data)` conversion is the identity on the underlying bytes, so text
and bytes share the representation here. -/
def EstimateText (text : List Nat) (opts : Options) : Result :=
  let strategy := if opts.Strategy = StrategyAuto then StrategyFast else opts.Strategy
  let tb : Int × List CategoryBreakdown :=
    if strategy = StrategyUltraFast then (estimateUltraFast text, [])
    else if strategy = StrategyFast then (estimateFast text, [])
    else if strategy = StrategyWeighted then
      estimateWeighted text (resolveProfile opts) opts.Explain
    else if strategy = StrategyZR then (estimateZR text, [])
    else (estimateFast text, [])
  { Tokens := applyMultiplier tb.1 opts.GlobalMultiplier,
    Strategy := strategy,
    Profile := resolveProfile opts,
    Breakdown := tb.2 }

/-- `EstimateInput`: text estimate with the multiplier deferred, plus image
and message overhead, with the caller's multiplier applied once at the end. -/
def EstimateInput (text : List Nat) (images : ImageCounts) (messageCount : Int)
    (opts : Options) : Result :=
  let multiplier := opts.GlobalMultiplier
  let result := EstimateText text { opts with GlobalMultiplier := 1 }
  let imageTokens := images.LowDetail * ImageTokensLow +
    images.HighDetail * ImageTokensHigh + images.Unknown * ImageTokensDefault
  let overhead := BaseOverhead + messageCount * PerMessageOverhead
  { result with Tokens := applyMultiplier (result.Tokens + imageTokens + overhead) multiplier }

def EstimateOutput (text : List Nat) (opts : Options) : Result := EstimateText text opts

/-! ## Cache layer (`WithCache`, `cachedEstimator`, `lruCache`)

The LRU list plus hash index is modelled as a single association list with
the most recently used entry at the front (the Go map only indexes the list;
there is one entry per key).  The seeded `maphash` key is modelled by the
tuple of hashed inputs: the claims about the cache only need that identical
inputs produce identical keys.  The constant overhead fields hashed in Go
are process-wide constants and are omitted from the tuple. -/

def defaultCacheMinTextBytes : Nat := 512

structure CacheKey where
  kind : Nat
  strategy : Int
  profile : Int
  multiplier : ℚ
  explain : Bool
  messageCount : Int
  images : ImageCounts
  payload : List Nat
  deriving DecidableEq

structure lruCache where
  cap : Nat
  items : List (CacheKey × Result)

/-- `lruCache.Get`: a hit moves the entry to the front and returns its
value. -/
def lruGet (c : lruCache) (key : CacheKey) : Option Result × lruCache :=
  match c.items.lookup key with
  | some v => (some v, { c with items := (key, v) :: c.items.eraseP (fun e => e.1 == key) })
  | none => (none, c)

/-- `lruCache.Add`: update-and-promote an existing key, else push to the
front and evict the least recently used entry on overflow. -/
def lruAdd (c : lruCache) (key : CacheKey) (v : Result) : lruCache :=
  match c.items.lookup key with
  | some _ => { c with items := (key, v) :: c.items.eraseP (fun e => e.1 == key) }
  | none =>
    let pushed := (key, v) :: c.items
    if c.cap < pushed.length then { c with items := pushed.dropLast }
    else { c with items := pushed }

def effectiveBytesStrategy (s : Int) : Int :=
  if s = StrategyAuto then StrategyUltraFast else s

def effectiveTextStrategy (s : Int) : Int :=
  if s = StrategyAuto then StrategyFast else s

/-- `cacheKeyText` (hash inputs of the text entry point; kind tag `'t'`). -/
def cacheKeyText (text : List Nat) (opts : Options) : CacheKey :=
  { kind := 116, strategy := effectiveTextStrategy opts.Strategy,
    profile := resolveProfile opts, multiplier := opts.GlobalMultiplier,
    explain := opts.Explain, messageCount := 0, images := {}, payload := text }

/-- `WithCache(inner, size).cache` right after construction: empty LRU of the
given capacity (a non-positive size makes `WithCache` return the inner
estimator untouched, so the cached path below assumes a positive size). -/
def withCacheState (size : Nat) : lruCache := { cap := size, items := [] }

/-- `cachedEstimator.EstimateText`, with the inner estimator abstract.  The
result triple is (returned Result, cache after the call, number of inner
estimator invocations made by this call) — the counter is how the claim about
cache hits is phrased. -/
def cachedEstimateText (inner : List Nat → Options → Result) (cache : lruCache)
    (text : List Nat) (opts : Options) : Result × lruCache × Nat :=
  if text.length < defaultCacheMinTextBytes then (inner text opts, cache, 1)
  else
    let key := cacheKeyText text opts
    match lruGet cache key with
    | (some v, c) => (v, c, 0)
    | (none, c) =>
      let v := inner text opts
      (v, lruAdd c key v, 1)

/-! ## Specification-side definitions

These definitions follow the wording of the specification (not the source);
they exist to be compared with the source-translated definitions above. -/

/-- Lower-cased, whitespace-trimmed hint string, as used by both hint layers
of the profile resolution order. -/
def lowerTrim (s : List Nat) : List Nat := (trimSpace s).map goToLower

/-- Provider hint for Claude: exact `anthropic` or substring `claude`. -/
def providerClaudeHint (p : List Nat) : Bool :=
  p = kwAnthropic || strContains p kwClaude

/-- Provider hint for Gemini: exact `gemini` or `google`, or substring
`gemini`. -/
def providerGeminiHint (p : List Nat) : Bool :=
  p = kwGemini || p = kwGoogle || strContains p kwGemini

/-- Provider hint for OpenAI: exact or substring `openai`. -/
def providerOpenAIHint (p : List Nat) : Bool :=
  p = kwOpenAI || strContains p kwOpenAI

/-- Model hint: substring `claude`. -/
def modelClaudeHint (m : List Nat) : Bool := strContains m kwClaude

/-- Model hint: substring `gemini`. -/
def modelGeminiHint (m : List Nat) : Bool := strContains m kwGemini

/-- The numeric pattern as the specification words it: digit/separator runes
only, at least one digit, at most a single separator style (`.` or `,`, not
both), and no leading and no trailing separator. -/
def specNumericPattern (rs : List Nat) : Bool :=
  !rs.isEmpty && rs.all (fun r => isDigitRune r || isSepRune r) &&
    rs.any isDigitRune &&
    !(rs.contains 46 && rs.contains 44) &&
    (match rs.head? with
     | some r => !isSepRune r
     | none => true) &&
    (match rs.getLast? with
     | some r => !isSepRune r
     | none => true)

/-! ## Concrete inputs used by witnesses -/

/-- A constant inner estimator (used to witness the cache claims). -/
def constInner : List Nat → Options → Result :=
  fun _ _ => { Tokens := 0, Strategy := 0, Profile := 0, Breakdown := [] }

/-- A 512-byte text (`"a"` repeated), at the cache threshold. -/
def repText : List Nat := List.replicate 512 97

/-! # Theorems -/

/-! ## Decoder facts -/

theorem decodeRune_size_pos (b : Nat) (l : List Nat) : 1 ≤ (decodeRune (b :: l)).2 := by
  rcases l with _ | ⟨b1, _ | ⟨b2, _ | ⟨b3, r⟩⟩⟩ <;>
    simp only [decodeRune] <;> (repeat' split) <;> simp

theorem decodeSeqAux_fuel :
    ∀ (m n : Nat) (s : List Nat), s.length ≤ m → s.length ≤ n →
      decodeSeqAux m s = decodeSeqAux n s := by
  intro m
  induction m with
  | zero =>
    intro n s hm _
    have : s = [] := List.length_eq_zero.mp (Nat.le_zero.mp hm)
    subst this
    cases n <;> rfl
  | succ m ih =>
    intro n s hm hn
    cases s with
    | nil => cases n <;> rfl
    | cons b l =>
      cases n with
      | zero => simp at hn
      | succ n =>
        have hsz := decodeRune_size_pos b l
        have hdrop : ((b :: l).drop (decodeRune (b :: l)).2).length ≤ l.length := by
          rw [List.length_drop]
          simp only [List.length_cons]
          omega
        have h1 : ((b :: l).drop (decodeRune (b :: l)).2).length ≤ m := by
          simp only [List.length_cons] at hm
          omega
        have h2 : ((b :: l).drop (decodeRune (b :: l)).2).length ≤ n := by
          simp only [List.length_cons] at hn
          omega
        simp only [decodeSeqAux]
        rw [ih n _ h1 h2]

theorem decodeSeq_cons (b : Nat) (l : List Nat) :
    decodeSeq (b :: l) =
      decodeRune (b :: l) :: decodeSeq ((b :: l).drop (decodeRune (b :: l)).2) := by
  have hsz := decodeRune_size_pos b l
  have hdrop : ((b :: l).drop (decodeRune (b :: l)).2).length ≤ l.length := by
    rw [List.length_drop]
    simp only [List.length_cons]
    omega
  show decodeSeqAux (b :: l).length (b :: l) = _
  simp only [List.length_cons, decodeSeqAux]
  congr 1
  exact decodeSeqAux_fuel l.length _ _ hdrop le_rfl

/-! ## Arithmetic helper -/

theorem ceil_ratCast_div_four (n : Nat) :
    Int.ceil ((n : ℚ) / 4) = (((n + 3) / 4 : Nat) : Int) := by
  have hq1 : n ≤ 4 * ((n + 3) / 4) := by omega
  have hq2 : 4 * ((n + 3) / 4) ≤ n + 3 := by omega
  have hc1 : (n : ℚ) ≤ 4 * (((n + 3) / 4 : ℕ) : ℚ) := by exact_mod_cast hq1
  have hc2 : 4 * (((n + 3) / 4 : ℕ) : ℚ) ≤ (n : ℚ) + 3 := by exact_mod_cast hq2
  rw [Int.ceil_eq_iff]
  simp only [Int.cast_natCast]
  constructor
  · rw [lt_div_iff₀ (by norm_num : (0 : ℚ) < 4)]
    linarith
  · rw [div_le_iff₀ (by norm_num : (0 : ℚ) < 4)]
    linarith

/-! ## Claim C1 -/

/-- C1: `EstimateInput` equals the text estimate taken with the multiplier
deferred (inner `GlobalMultiplier` forced to 1), plus
`LowDetail·85 + HighDetail·765 + Unknown·500 + 50 + 4·messageCount`, with the
caller's multiplier applied exactly once to the final sum; in particular
`EstimateInput("hello", \x7bLowDetail:1\x7d, 2, \x7bUltraFast\x7d).Tokens = 145`. -/
theorem c1_estimateInput_decomposition :
    (∀ (text : List Nat) (images : ImageCounts) (messageCount : Int) (opts : Options),
      (EstimateInput text images messageCount opts).Tokens =
        applyMultiplier
          ((EstimateText text { opts with GlobalMultiplier := 1 }).Tokens +
            (images.LowDetail * 85 + images.HighDetail * 765 + images.Unknown * 500) +
            (50 + messageCount * 4))
          opts.GlobalMultiplier) ∧
    (EstimateInput [104, 101, 108, 108, 111] { LowDetail := 1 } 2
        { Strategy := StrategyUltraFast }).Tokens = 145 :=
  ⟨fun _ _ _ _ => rfl, by decide⟩

/-! ## Claim C2 -/

/-- C2: `EstimateBytes(b, \x7bStrategy: UltraFast\x7d).Tokens` is
`ceil(len(b)/4)` for every byte slice `b`, and is zero exactly when `b` is
empty. -/
theorem c2_estimateBytes_ultraFast (b : List Nat) :
    (EstimateBytes b { Strategy := StrategyUltraFast }).Tokens = Int.ceil ((b.length : ℚ) / 4) ∧
    ((EstimateBytes b { Strategy := StrategyUltraFast }).Tokens = 0 ↔ b = []) := by
  have hTok : (EstimateBytes b { Strategy := StrategyUltraFast }).Tokens = estimateUltraFast b := rfl
  rw [hTok]
  constructor
  · rcases b with _ | ⟨x, xs⟩
    · simp [estimateUltraFast]
    · simp only [estimateUltraFast, if_neg (List.cons_ne_nil x xs)]
      rw [ceil_ratCast_div_four]
  · rcases b with _ | ⟨x, xs⟩
    · simp [estimateUltraFast]
    · constructor
      · intro h
        exfalso
        have h2 : estimateUltraFast (x :: xs) = ((((x :: xs).length + 3) / 4 : ℕ) : ℤ) := by
          unfold estimateUltraFast
          rw [if_neg (List.cons_ne_nil x xs)]
        rw [h2, Int.natCast_eq_zero] at h
        simp only [List.length_cons] at h
        omega
      · intro h
        exact absurd h (List.cons_ne_nil x xs)

/-! ## Claim C5 -/

/-- C5: profile resolution is first-match-wins: an explicit non-Auto
`Options.Profile`, then provider-type hints (exact `anthropic`/substring
`claude`; exact `gemini`/`google`/substring `gemini`; exact or substring
`openai`, all on the lower-cased trimmed hint), then model substring hints
(`claude`, `gemini`), then the OpenAI default.  In particular
`ProviderType = "anthropic"` resolves to Claude and `Model = "qwen-2.5"`
with no provider hint resolves to OpenAI. -/
theorem c5_resolveProfile_order :
    (∀ opts : Options,
      resolveProfile opts =
        if opts.Profile ≠ ProfileAuto then opts.Profile
        else if providerClaudeHint (lowerTrim opts.ProviderType) then ProfileClaude
        else if providerGeminiHint (lowerTrim opts.ProviderType) then ProfileGemini
        else if providerOpenAIHint (lowerTrim opts.ProviderType) then ProfileOpenAI
        else if modelClaudeHint (lowerTrim opts.Model) then ProfileClaude
        else if modelGeminiHint (lowerTrim opts.Model) then ProfileGemini
        else ProfileOpenAI) ∧
    resolveProfile { ProviderType := kwAnthropic } = ProfileClaude ∧
    resolveProfile { Model := [113, 119, 101, 110, 45, 50, 46, 53] } = ProfileOpenAI :=
  ⟨fun _ => rfl, by decide, by decide⟩

/-! ## Claim C7 -/

/-- C7: a `GlobalMultiplier` that is zero or negative is a no-op: it leaves
every token count unchanged, and every `Estimate*` entry point returns
exactly what it returns with multiplier 1. -/
theorem c7_nonpos_multiplier_noop :
    (∀ (tokens : Int) (multiplier : ℚ), multiplier ≤ 0 →
      applyMultiplier tokens multiplier = tokens) ∧
    (∀ (text : List Nat) (opts : Options), opts.GlobalMultiplier ≤ 0 →
      EstimateText text opts = EstimateText text { opts with GlobalMultiplier := 1 } ∧
      EstimateBytes text opts = EstimateBytes text { opts with GlobalMultiplier := 1 } ∧
      ∀ (images : ImageCounts) (messageCount : Int),
        EstimateInput text images messageCount opts =
          EstimateInput text images messageCount { opts with GlobalMultiplier := 1 }) := by
  have hnoop : ∀ (t : Int) (m : ℚ), m ≤ 0 → applyMultiplier t m = t := by
    intro t m hm
    simp [applyMultiplier, hm]
  have hone : ∀ t : Int, applyMultiplier t 1 = t := by
    intro t
    simp [applyMultiplier]
  refine ⟨hnoop, ?_⟩
  intro text opts hm
  have h1 : ∀ t : Int, applyMultiplier t opts.GlobalMultiplier = t := fun t => hnoop t _ hm
  have hprof : resolveProfile { opts with GlobalMultiplier := 1 } = resolveProfile opts := rfl
  refine ⟨?_, ?_, ?_⟩
  · simp [EstimateText, h1, hone, hprof]
  · simp [EstimateBytes, h1, hone, hprof]
  · intro images messageCount
    simp [EstimateInput, h1, hone, hprof]

/-- Witness for C7 at multiplier `-1`. -/
theorem c7_nonpos_multiplier_noop_witness :
    ((-1 : ℚ) ≤ 0 ∧ applyMultiplier 5 (-1) = 5) ∧
    (({ GlobalMultiplier := -1 } : Options).GlobalMultiplier ≤ 0 ∧
      EstimateText [97] { GlobalMultiplier := -1 } =
        EstimateText [97] { ({ GlobalMultiplier := -1 } : Options) with GlobalMultiplier := 1 }) :=
  ⟨⟨by norm_num, c7_nonpos_multiplier_noop.1 5 (-1) (by norm_num)⟩,
   ⟨by norm_num, (c7_nonpos_multiplier_noop.2 [97] { GlobalMultiplier := -1 } (by norm_num)).1⟩⟩

/-! ## Claim C9 -/

/-- C9: for each of the four named strategies, the bytes entry point returns
a `Result` identical in every field to the text entry point on the same
payload (Go's `string(b)` conversion preserves the bytes). -/
theorem c9_bytes_text_agree (data : List Nat) (opts : Options)
    (h : opts.Strategy = StrategyUltraFast ∨ opts.Strategy = StrategyFast ∨
      opts.Strategy = StrategyWeighted ∨ opts.Strategy = StrategyZR) :
    EstimateBytes data opts = EstimateText data opts := by
  rcases h with h | h | h | h <;>
    norm_num [EstimateBytes, EstimateText, h, StrategyAuto, StrategyUltraFast,
      StrategyFast, StrategyWeighted, StrategyZR]

/-- Witness for C9 at the UltraFast strategy. -/
theorem c9_bytes_text_agree_witness :
    (({ Strategy := StrategyUltraFast } : Options).Strategy = StrategyUltraFast ∨
      ({ Strategy := StrategyUltraFast } : Options).Strategy = StrategyFast ∨
      ({ Strategy := StrategyUltraFast } : Options).Strategy = StrategyWeighted ∨
      ({ Strategy := StrategyUltraFast } : Options).Strategy = StrategyZR) ∧
    EstimateBytes [97] { Strategy := StrategyUltraFast } =
      EstimateText [97] { Strategy := StrategyUltraFast } :=
  ⟨Or.inl rfl, c9_bytes_text_agree [97] _ (Or.inl rfl)⟩

/-! ## Claim C10 -/

/-- C10: for a strategy value outside the five defined constants,
`EstimateText` counts with the Fast algorithm and `EstimateBytes` with the
UltraFast algorithm, while both echo the caller's unknown strategy value in
`Result.Strategy`. -/
theorem c10_unknown_strategy (data : List Nat) (opts : Options)
    (h0 : opts.Strategy ≠ StrategyAuto) (h1 : opts.Strategy ≠ StrategyUltraFast)
    (h2 : opts.Strategy ≠ StrategyFast) (h3 : opts.Strategy ≠ StrategyWeighted)
    (h4 : opts.Strategy ≠ StrategyZR) :
    EstimateText data opts =
      { Tokens := applyMultiplier (estimateFast data) opts.GlobalMultiplier,
        Strategy := opts.Strategy, Profile := resolveProfile opts, Breakdown := [] } ∧
    EstimateBytes data opts =
      { Tokens := applyMultiplier (estimateUltraFast data) opts.GlobalMultiplier,
        Strategy := opts.Strategy, Profile := resolveProfile opts, Breakdown := [] } := by
  constructor <;> simp [EstimateText, EstimateBytes, h0, h1, h2, h3, h4]

/-! ## Claim C6 -/

set_option maxRecDepth 4000 in
/-- C6: with a positive capacity, a fresh cache-wrapped estimator serves the
second of two identical `EstimateText` calls on a text of at least 512 bytes
from the cache, so the inner estimator runs exactly once across the two
calls and both calls return the same `Result`; a text shorter than 512 bytes
always invokes the inner estimator and leaves the cache untouched. -/
theorem c6_cache_hit_and_bypass :
    (∀ (inner : List Nat → Options → Result) (size : Nat) (text : List Nat) (opts : Options),
      0 < size → defaultCacheMinTextBytes ≤ text.length →
      (cachedEstimateText inner (withCacheState size) text opts).2.2 = 1 ∧
      (cachedEstimateText inner
        (cachedEstimateText inner (withCacheState size) text opts).2.1 text opts).2.2 = 0 ∧
      (cachedEstimateText inner
        (cachedEstimateText inner (withCacheState size) text opts).2.1 text opts).1 =
        (cachedEstimateText inner (withCacheState size) text opts).1) ∧
    (∀ (inner : List Nat → Options → Result) (cache : lruCache) (text : List Nat)
        (opts : Options),
      text.length < defaultCacheMinTextBytes →
      cachedEstimateText inner cache text opts = (inner text opts, cache, 1)) := by
  constructor
  · intro inner size text opts hsize hlen
    have hnot : ¬ text.length < defaultCacheMinTextBytes := by omega
    have hns : ¬ (size < 1) := by omega
    have hfirst : cachedEstimateText inner (withCacheState size) text opts =
        (inner text opts,
         { cap := size, items := [(cacheKeyText text opts, inner text opts)] }, 1) := by
      simp only [cachedEstimateText, if_neg hnot]
      have hget : lruGet (withCacheState size) (cacheKeyText text opts) =
          (none, withCacheState size) := rfl
      rw [hget]
      show (inner text opts,
        lruAdd (withCacheState size) (cacheKeyText text opts) (inner text opts), 1) = _
      have hadd : lruAdd (withCacheState size) (cacheKeyText text opts) (inner text opts) =
          { cap := size, items := [(cacheKeyText text opts, inner text opts)] } := by
        show lruAdd { cap := size, items := [] } _ _ = _
        unfold lruAdd
        simp only [List.lookup]
        rw [if_neg (by simpa using hns)]
      rw [hadd]
    have hsecond : cachedEstimateText inner
        ({ cap := size, items := [(cacheKeyText text opts, inner text opts)] } : lruCache)
        text opts =
        (inner text opts,
         { cap := size, items := [(cacheKeyText text opts, inner text opts)] }, 0) := by
      simp only [cachedEstimateText, if_neg hnot]
      have hget2 : lruGet { cap := size, items := [(cacheKeyText text opts, inner text opts)] }
          (cacheKeyText text opts) =
          (some (inner text opts),
           { cap := size, items := [(cacheKeyText text opts, inner text opts)] }) := by
        unfold lruGet
        simp [List.lookup, List.eraseP]
      rw [hget2]
    refine ⟨?_, ?_, ?_⟩ <;> simp [hfirst, hsecond]
  · intro inner cache text opts hlt
    simp [cachedEstimateText, hlt]

/-- Witness for C6: capacity 1, the 512-byte text, the constant inner
estimator, and a 1-byte text for the bypass part. -/
theorem c6_cache_hit_and_bypass_witness :
    ((0 < 1 ∧ defaultCacheMinTextBytes ≤ repText.length) ∧
      ((cachedEstimateText constInner (withCacheState 1) repText {}).2.2 = 1 ∧
        (cachedEstimateText constInner
          (cachedEstimateText constInner (withCacheState 1) repText {}).2.1 repText {}).2.2 = 0 ∧
        (cachedEstimateText constInner
          (cachedEstimateText constInner (withCacheState 1) repText {}).2.1 repText {}).1 =
          (cachedEstimateText constInner (withCacheState 1) repText {}).1)) ∧
    (([97] : List Nat).length < defaultCacheMinTextBytes ∧
      cachedEstimateText constInner (withCacheState 1) [97] {} =
        (constInner [97] {}, withCacheState 1, 1)) :=
  ⟨⟨⟨by decide, by rw [repText, List.length_replicate]; exact Nat.le_refl 512⟩,
    c6_cache_hit_and_bypass.1 constInner 1 repText {} (by decide)
      (by rw [repText, List.length_replicate]; exact Nat.le_refl 512)⟩,
   ⟨by decide, c6_cache_hit_and_bypass.2 constInner (withCacheState 1) [97] {} (by decide)⟩⟩

/-! ## Claim C8 -/

/-- The accumulated-groups component of the Weighted scan state is a prefix
that the rest of the fold only appends to. -/
theorem wFlush_foldl_done :
    ∀ (l : List (Nat × Nat)) (d : List (WKind × List Nat)) (c : Option (WKind × List Nat)),
      wFlush (l.foldl wStep ⟨d, c⟩) = d ++ wFlush (l.foldl wStep ⟨[], c⟩) := by
  intro l
  induction l with
  | nil =>
    intro d c
    cases c <;> simp [wFlush]
  | cons p l ih =>
    intro d c
    rcases c with _ | ⟨k, rs⟩
    · simp only [List.foldl_cons, wStep]
      exact ih d _
    · simp only [List.foldl_cons, wStep]
      by_cases hc : wContinues k p.1
      · simp only [if_pos hc]
        exact ih d _
      · simp only [if_neg hc, List.nil_append]
        rw [ih (d ++ [(k, rs)]) _, ih [(k, rs)] _]
        simp

/-- A pending `err` pseudo-run is flushed as its own group in front of
whatever the rest of the scan produces. -/
theorem wFlush_foldl_err (rest : List (Nat × Nat)) (rs0 : List Nat) :
    wFlush (rest.foldl wStep ⟨[], some (WKind.err, rs0)⟩) =
      (WKind.err, rs0) :: wFlush (rest.foldl wStep ⟨[], none⟩) := by
  cases rest with
  | nil => simp [wFlush]
  | cons p l =>
    have hstep : wStep ⟨[], some (WKind.err, rs0)⟩ p =
        ⟨[(WKind.err, rs0)], some (wkindOf p.1 p.2, [p.1])⟩ := by
      simp [wStep, wContinues]
    simp only [List.foldl_cons, hstep]
    rw [wFlush_foldl_done l [(WKind.err, rs0)] _]
    simp only [List.cons_append, List.nil_append, List.cons.injEq, true_and]
    rfl

/-- A single-byte decode failure at the head of the input becomes its own
`err` segment, and the rest of the text is segmented independently. -/
theorem weightedSegments_err (s : List Nat) (h : decodeRune s = (RuneError, 1)) :
    weightedSegments s = (WKind.err, [RuneError]) :: weightedSegments (s.drop 1) := by
  rcases s with _ | ⟨b, l⟩
  · exfalso
    simp [decodeRune, RuneError] at h
  · have hseq : decodeSeq (b :: l) = (RuneError, 1) :: decodeSeq ((b :: l).drop 1) := by
      have := decodeSeq_cons b l
      rw [h] at this
      exact this
    unfold weightedSegments
    rw [hseq]
    simp only [List.foldl_cons]
    have hstep : wStep ⟨[], none⟩ (RuneError, 1) = ⟨[], some (WKind.err, [RuneError])⟩ := by
      simp [wStep, wkindOf, RuneError, goIsSpace]
    rw [hstep]
    rw [wFlush_foldl_err]

/-- Every profile weight table has strictly positive entries. -/
theorem weightForCategory_pos (profile : Int) (c : Category) :
    0 < weightForCategory (weightsForProfile profile) c := by
  unfold weightsForProfile
  split_ifs <;> cases c <;> norm_num [weightForCategory]

/-- C8: the Weighted estimator never fails on malformed UTF-8: a decode
failure (RuneError with size 1) at the scan position contributes exactly one
`symbol` base unit and the scan advances one byte; and every input yields a
well-defined, non-negative token count. -/
theorem c8_weighted_decode_failure :
    (∀ s : List Nat, decodeRune s = (RuneError, 1) →
      weightedEvents s = (Category.symbol, 1) :: weightedEvents (s.drop 1)) ∧
    (∀ (text : List Nat) (profile : Int) (explain : Bool),
      0 ≤ (estimateWeighted text profile explain).1) := by
  constructor
  · intro s h
    unfold weightedEvents
    rw [weightedSegments_err s h]
    rfl
  · intro text profile explain
    by_cases htext : text = []
    · subst htext
      simp [estimateWeighted]
    · have hval : (estimateWeighted text profile explain).1 =
          Int.ceil ((((weightedEvents text).filter (fun e => decide (0 < e.2))).map
            (fun e => e.2 * weightForCategory (weightsForProfile profile) e.1)).sum) := by
        simp [estimateWeighted, htext]
      rw [hval]
      apply Int.ceil_nonneg
      apply List.sum_nonneg
      intro x hx
      simp only [List.mem_map] at hx
      obtain ⟨e, he, rfl⟩ := hx
      have he2 : 0 < e.2 := of_decide_eq_true (List.mem_filter.mp he).2
      exact le_of_lt (mul_pos he2 (weightForCategory_pos profile e.1))

/-- Witness for C8 at the invalid byte `0xFF` followed by `"a"`. -/
theorem c8_weighted_decode_failure_witness :
    decodeRune [255, 97] = (RuneError, 1) ∧
    weightedEvents [255, 97] = (Category.symbol, 1) :: weightedEvents ([255, 97].drop 1) :=
  ⟨by decide, c8_weighted_decode_failure.1 [255, 97] (by decide)⟩

/-! ## Claim C3 -/

theorem digit_not_sep {r : Nat} (hd : isDigitRune r = true) : isSepRune r = false := by
  simp only [isDigitRune, decide_eq_true_eq] at hd
  simp only [isSepRune, decide_eq_false_iff_not]
  omega

theorem digit_not_cjk {r : Nat} (hd : isDigitRune r = true) : isCJKRune r = false := by
  simp only [isDigitRune, decide_eq_true_eq] at hd
  simp only [isCJKRune, decide_eq_false_iff_not]
  omega

/-- Characterization of the `isNumericSegment` state machine: digit/separator
runes only, no two adjacent separators, the head is a digit whenever the
previous rune was a separator, and the final rune is a digit (or, for the
empty remainder, a digit has been seen and no separator is pending). -/
theorem isNumericLoop_iff :
    ∀ (rs : List Nat) (h p : Bool),
      isNumericLoop rs h p = true ↔
        ((∀ r ∈ rs, isDigitRune r = true ∨ isSepRune r = true) ∧
         rs.Chain' (fun a b => ¬(isSepRune a = true ∧ isSepRune b = true)) ∧
         (p = true → ∀ x ∈ rs.head?, isDigitRune x = true) ∧
         rs.getLast?.elim (h = true ∧ p = false) (fun x => isDigitRune x = true)) := by
  intro rs
  induction rs with
  | nil =>
    intro h p
    simp [isNumericLoop, Bool.and_eq_true, Bool.not_eq_true']
  | cons r rs ih =>
    intro h p
    by_cases hd : isDigitRune r = true
    · have hs := digit_not_sep hd
      rw [show isNumericLoop (r :: rs) h p = isNumericLoop rs true false from by
          simp [isNumericLoop, hd],
        ih true false]
      constructor
      · rintro ⟨hA, hB, -, hD⟩
        refine ⟨?_, ?_, ?_, ?_⟩
        · intro x hx
          rcases List.mem_cons.mp hx with rfl | hx
          · exact Or.inl hd
          · exact hA x hx
        · rw [List.chain'_cons']
          refine ⟨?_, hB⟩
          intro b _
          rintro ⟨h1, -⟩
          rw [hs] at h1
          exact Bool.false_ne_true h1
        · intro _ x hx
          simp only [List.head?_cons, Option.mem_def, Option.some.injEq] at hx
          subst hx
          exact hd
        · cases rs with
          | nil =>
            rw [List.getLast?_singleton]
            exact hd
          | cons y l =>
            rw [List.getLast?_cons_cons]
            exact hD
      · rintro ⟨hA, hB, -, hD⟩
        refine ⟨fun x hx => hA x (List.mem_cons_of_mem r hx), (List.chain'_cons'.mp hB).2,
          ?_, ?_⟩
        · intro hfp
          exact absurd hfp (by simp)
        · cases rs with
          | nil => exact ⟨rfl, rfl⟩
          | cons y l =>
            rw [List.getLast?_cons_cons] at hD
            exact hD
    · by_cases hs : isSepRune r = true
      · by_cases hp : p = true
        · rw [show isNumericLoop (r :: rs) h p = false from by
            simp [isNumericLoop, hd, hs, hp]]
          simp only [Bool.false_eq_true, false_iff]
          rintro ⟨-, -, hC, -⟩
          exact hd (hC hp r (by simp))
        · have hp' : p = false := by
            revert hp
            cases p <;> simp
          subst hp'
          rw [show isNumericLoop (r :: rs) h false = isNumericLoop rs h true from by
              simp [isNumericLoop, hd, hs],
            ih h true]
          constructor
          · rintro ⟨hA, hB, hC, hD⟩
            refine ⟨?_, ?_, ?_, ?_⟩
            · intro x hx
              rcases List.mem_cons.mp hx with rfl | hx
              · exact Or.inr hs
              · exact hA x hx
            · rw [List.chain'_cons']
              refine ⟨?_, hB⟩
              intro b hb
              rintro ⟨-, h2⟩
              have hdb := hC rfl b hb
              rw [digit_not_sep hdb] at h2
              exact Bool.false_ne_true h2
            · intro hfp
              exact absurd hfp (by simp)
            · cases rs with
              | nil =>
                exfalso
                simp only [List.getLast?_nil, Option.elim] at hD
                exact absurd hD.2 (by simp)
              | cons y l =>
                rw [List.getLast?_cons_cons]
                exact hD
          · rintro ⟨hA, hB, -, hD⟩
            refine ⟨fun x hx => hA x (List.mem_cons_of_mem r hx), (List.chain'_cons'.mp hB).2,
              ?_, ?_⟩
            · intro _ x hx
              have hnotsep := (List.chain'_cons'.mp hB).1 x hx
              rcases hA x (List.mem_cons_of_mem r (List.mem_of_mem_head? hx)) with h1 | h1
              · exact h1
              · exact absurd ⟨hs, h1⟩ hnotsep
            · cases rs with
              | nil =>
                exfalso
                rw [List.getLast?_singleton] at hD
                exact hd hD
              | cons y l =>
                rw [List.getLast?_cons_cons] at hD
                exact hD
      · rw [show isNumericLoop (r :: rs) h p = false from by
          simp [isNumericLoop, hd, hs]]
        simp only [Bool.false_eq_true, false_iff]
        rintro ⟨hA, -, -, -⟩
        rcases hA r (by simp) with h1 | h1
        · exact hd h1
        · exact hs h1

/-- The full-string characterization of `isNumericSegment`. -/
theorem isNumericSegment_iff (rs : List Nat) :
    isNumericSegment rs = true ↔
      ((∀ r ∈ rs, isDigitRune r = true ∨ isSepRune r = true) ∧
       rs.Chain' (fun a b => ¬(isSepRune a = true ∧ isSepRune b = true)) ∧
       rs.getLast?.elim False (fun x => isDigitRune x = true)) := by
  rw [show isNumericSegment rs = isNumericLoop rs false false from rfl, isNumericLoop_iff]
  constructor
  · rintro ⟨hA, hB, -, hD⟩
    refine ⟨hA, hB, ?_⟩
    cases hL : rs.getLast? with
    | none =>
      rw [hL] at hD
      exact absurd hD.1 (by simp)
    | some x =>
      rw [hL] at hD
      exact hD
  · rintro ⟨hA, hB, hD⟩
    refine ⟨hA, hB, fun hfp => absurd hfp (by simp), ?_⟩
    cases hL : rs.getLast? with
    | none =>
      rw [hL] at hD
      exact hD.elim
    | some x =>
      rw [hL] at hD
      exact hD

/-- C3 counterexample: the word segments `".5"` (leading separator) and
`"1.2,3"` (mixed separator styles) are each awarded one `number` base unit
although the claimed pattern rejects them, while `"1..2"` (adjacent
separators of a single style, no leading or trailing separator) matches the
claimed pattern but is counted as a generic word, not a number. -/
theorem c3_numeric_pattern_counterexample :
    (addWordSegment [46, 53] = [(Category.number, 1)] ∧
      specNumericPattern [46, 53] = false) ∧
    (addWordSegment [49, 46, 50, 44, 51] = [(Category.number, 1)] ∧
      specNumericPattern [49, 46, 50, 44, 51] = false) ∧
    (addWordSegment [49, 46, 46, 50] = [(Category.word, 4)] ∧
      specNumericPattern [49, 46, 46, 50] = true) := by
  refine ⟨⟨?_, ?_⟩, ⟨?_, ?_⟩, ⟨?_, ?_⟩⟩ <;> decide

/-- C3 (amended): in the Weighted estimator's word-segment handler, a segment
is awarded exactly one `number` base unit iff every rune is a digit or a
separator (`.` or `,`), no two adjacent runes are both separators, and the
final rune is a digit.  Leading separators and mixed `.`/`,` separator styles
are accepted; adjacent separators and a trailing separator are rejected. -/
theorem c3_addWordSegment_number_iff (rs : List Nat) :
    addWordSegment rs = [(Category.number, 1)] ↔
      ((∀ r ∈ rs, isDigitRune r = true ∨ isSepRune r = true) ∧
       rs.Chain' (fun a b => ¬(isSepRune a = true ∧ isSepRune b = true)) ∧
       rs.getLast?.elim False (fun x => isDigitRune x = true)) := by
  rw [← isNumericSegment_iff]
  constructor
  · intro hout
    by_cases hnum : isNumericSegment rs = true
    · exact hnum
    · exfalso
      unfold addWordSegment at hout
      split_ifs at hout <;> simp_all
  · intro hnum
    have hne : rs ≠ [] := by
      intro h0
      subst h0
      simp [isNumericSegment, isNumericLoop] at hnum
    have hcjk : ¬ (isCJKSegment rs = true) := by
      intro hc
      rcases (isNumericSegment_iff rs).mp hnum with ⟨-, -, hD⟩
      cases hL : rs.getLast? with
      | none =>
        rw [hL] at hD
        exact hD.elim
      | some x =>
        rw [hL] at hD
        simp only [Option.elim] at hD
        have hx : x ∈ rs := List.mem_of_getLast?_eq_some hL
        simp only [isCJKSegment, Bool.and_eq_true] at hc
        have := (List.all_eq_true.mp hc.2) x hx
        rw [digit_not_cjk hD] at this
        exact Bool.false_ne_true this
    unfold addWordSegment
    rw [if_neg hne, if_neg hcjk, if_pos hnum]

/-! ## Claim C4 -/

/-- Every category row of the fitted table is non-empty, so the nil-coefficient
fallback inside `estimateZR` is dead for the baked-in table. -/
theorem zrCoefficients_ne_nil (c : zrCategory) : zrCoefficientsByCategory c ≠ [] := by
  cases c <;> simp [zrCoefficientsByCategory]

/-- C4: ZR returns 0 on the empty string and is never negative; whenever the
base scan is non-zero, the result is 0 if the fitted dot product is negative
and its ceiling otherwise. -/
theorem c4_estimateZR_clamp :
    estimateZR [] = 0 ∧
    (∀ text : List Nat, 0 ≤ estimateZR text) ∧
    (∀ text : List Nat, text ≠ [] →
      (estimateZRTokenXWithStats text zrConfigDefault).1 ≠ 0 →
      estimateZR text =
        (if zrPredict
            (zrCoefficientsByCategory
              (classifyZR (estimateZRTokenXWithStats text zrConfigDefault).2 zrConfigDefault))
            (buildZRFeatures (estimateZRTokenXWithStats text zrConfigDefault).1
              (estimateZRTokenXWithStats text zrConfigDefault).2) < 0 then 0
         else Int.ceil (zrPredict
            (zrCoefficientsByCategory
              (classifyZR (estimateZRTokenXWithStats text zrConfigDefault).2 zrConfigDefault))
            (buildZRFeatures (estimateZRTokenXWithStats text zrConfigDefault).1
              (estimateZRTokenXWithStats text zrConfigDefault).2)))) := by
  refine ⟨rfl, ?_, ?_⟩
  · intro text
    simp only [estimateZR]
    split_ifs <;> first
      | exact le_refl 0
      | (rename_i hpred; exact Int.ceil_nonneg (not_lt.mp hpred))
  · intro text h1 h2
    simp only [estimateZR, if_neg h1, if_neg h2,
      if_neg (zrCoefficients_ne_nil
        (classifyZR (estimateZRTokenXWithStats text zrConfigDefault).2 zrConfigDefault))]

/-- Witness for C4 on the one-byte text `"a"`. -/
theorem c4_estimateZR_clamp_witness :
    (([97] : List Nat) ≠ [] ∧ (estimateZRTokenXWithStats [97] zrConfigDefault).1 ≠ 0) ∧
    estimateZR [97] =
      (if zrPredict
          (zrCoefficientsByCategory
            (classifyZR (estimateZRTokenXWithStats [97] zrConfigDefault).2 zrConfigDefault))
          (buildZRFeatures (estimateZRTokenXWithStats [97] zrConfigDefault).1
            (estimateZRTokenXWithStats [97] zrConfigDefault).2) < 0 then 0
       else Int.ceil (zrPredict
          (zrCoefficientsByCategory
            (classifyZR (estimateZRTokenXWithStats [97] zrConfigDefault).2 zrConfigDefault))
          (buildZRFeatures (estimateZRTokenXWithStats [97] zrConfigDefault).1
            (estimateZRTokenXWithStats [97] zrConfigDefault).2))) :=
  ⟨⟨by decide, by decide⟩, c4_estimateZR_clamp.2.2 [97] (by decide) (by decide)⟩

/-- Witness for C10 at strategy value 7. -/
theorem c10_unknown_strategy_witness :
    (({ Strategy := 7 } : Options).Strategy ≠ StrategyAuto ∧
      ({ Strategy := 7 } : Options).Strategy ≠ StrategyUltraFast ∧
      ({ Strategy := 7 } : Options).Strategy ≠ StrategyFast ∧
      ({ Strategy := 7 } : Options).Strategy ≠ StrategyWeighted ∧
      ({ Strategy := 7 } : Options).Strategy ≠ StrategyZR) ∧
    (EstimateText [97, 98] { Strategy := 7 } =
      { Tokens := applyMultiplier (estimateFast [97, 98])
          (({ Strategy := 7 } : Options).GlobalMultiplier),
        Strategy := 7, Profile := resolveProfile { Strategy := 7 }, Breakdown := [] } ∧
    EstimateBytes [97, 98] { Strategy := 7 } =
      { Tokens := applyMultiplier (estimateUltraFast [97, 98])
          (({ Strategy := 7 } : Options).GlobalMultiplier),
        Strategy := 7, Profile := resolveProfile { Strategy := 7 }, Breakdown := [] }) :=
  ⟨⟨by decide, by decide, by decide, by decide, by decide⟩,
   c10_unknown_strategy [97, 98] { Strategy := 7 }
     (by decide) (by decide) (by decide) (by decide) (by decide)⟩

end Tokenest
